import Mathlib

/-!
Verification of the quadrant-swap seamless-texture pipeline
(`src/inpainting.py`) against its design specification.

Shallow embedding conventions:
- A PIL image is modelled as `Img`: width, height, a color-mode tag, and a
  total pixel function `Nat → Nat → Nat × Nat × Nat` giving the RGB content
  of each coordinate (only coordinates with `x < width`, `y < height` are
  meaningful; image equality `imgEq` compares only those).  A grayscale
  image stores each gray value `v` expanded as `(v, v, v)`, matching PIL's
  L → RGB conversion on paste, so paste-time mode conversion is the
  identity on the stored content.
- `Image.crop` fills the part of the crop box lying outside the source
  with black, as PIL does; `Image.paste` overwrites the rectangle at the
  given offset.  `ImageDraw.rectangle` fills the box with BOTH corner
  points included (PIL's documented inclusive semantics); coordinates are
  `Int` since `half_height - half_mask_width` can be negative in Python.
- Masks (PIL mode 'L') are `Mask`: width, height and a single-channel
  pixel function.
- The external HTTP call in `inpaint_with_stability_api` is abstracted as
  a function argument `api` returning an `ApiResponse` (status code plus
  decoded artifact image); a non-200 status raises, modelled as
  `Except.error .externalServiceError`.  File loading/saving is external
  I/O: `make_texture_seamless` takes the loaded `Img` directly and returns
  the final image in `Except`.
-/

/-- Color-mode tag of a PIL image (`'RGB'`, `'L'`, `'RGBA'`). -/
inductive Mode where
  | RGB : Mode
  | L : Mode
  | RGBA : Mode
deriving DecidableEq, Repr

/-- A PIL image: dimensions, mode tag, and RGB content at each coordinate. -/
structure Img where
  width : Nat
  height : Nat
  mode : Mode
  pix : Nat → Nat → Nat × Nat × Nat

/-- Model of `Image.new(mode, size)`: a blank (black) image. -/
def Img.new (m : Mode) (size : Nat × Nat) : Img :=
  { width := size.1, height := size.2, mode := m, pix := fun _ _ => (0, 0, 0) }

/-- Model of `image.crop((l, t, r, b))`: an `(r-l) × (b-t)` image whose pixel
`(x, y)` is the source pixel `(l+x, t+y)`, black where the crop box leaves
the source.  Mode is inherited from the source. -/
def Img.crop (img : Img) (l t r b : Nat) : Img :=
  { width := r - l
    height := b - t
    mode := img.mode
    pix := fun x y =>
      if l + x < img.width ∧ t + y < img.height then img.pix (l + x) (t + y)
      else (0, 0, 0) }

/-- Model of `base.paste(im, (ox, oy))`: overwrite the rectangle
`[ox, ox+im.width) × [oy, oy+im.height)` of `base` with `im` (PIL converts
the pasted image to the base's mode; on our expanded-RGB representation
that conversion is the identity).  Dimensions and mode of `base` are
unchanged. -/
def Img.paste (base : Img) (im : Img) (ox oy : Nat) : Img :=
  { base with
    pix := fun x y =>
      if ox ≤ x ∧ x < ox + im.width ∧ oy ≤ y ∧ y < oy + im.height then
        im.pix (x - ox) (y - oy)
      else base.pix x y }

/-- Pixel-identity of two images: equal dimensions, equal mode, and equal
pixel content at every in-bounds coordinate. -/
def imgEq (a b : Img) : Prop :=
  a.width = b.width ∧ a.height = b.height ∧ a.mode = b.mode ∧
    ∀ x, x < a.width → ∀ y, y < a.height → a.pix x y = b.pix x y

instance (a b : Img) : Decidable (imgEq a b) := by
  unfold imgEq; infer_instance

/-- `split_image_into_quadrants(image)` from `src/inpainting.py`. -/
def split_image_into_quadrants (image : Img) :
    Img × Img × Img × Img :=
  let width := image.width
  let height := image.height
  let half_width := width / 2
  let half_height := height / 2
  let top_left := image.crop 0 0 half_width half_height
  let top_right := image.crop half_width 0 width half_height
  let bottom_left := image.crop 0 half_height half_width height
  let bottom_right := image.crop half_width half_height width height
  (top_left, top_right, bottom_left, bottom_right)

/-- `swap_quadrants_diagonally(quadrants)` from `src/inpainting.py`. -/
def swap_quadrants_diagonally (quadrants : Img × Img × Img × Img) :
    Img × Img × Img × Img :=
  let (top_left, top_right, bottom_left, bottom_right) := quadrants
  (bottom_right, bottom_left, top_right, top_left)

/-- `combine_quadrants(quadrants, output_size)` from `src/inpainting.py`:
paste the four quadrants at their label offsets onto a fresh RGB image of
`output_size`. -/
def combine_quadrants (quadrants : Img × Img × Img × Img)
    (output_size : Nat × Nat) : Img :=
  let (top_left, top_right, bottom_left, bottom_right) := quadrants
  let combined := Img.new Mode.RGB output_size
  let half_width := output_size.1 / 2
  let half_height := output_size.2 / 2
  ((((combined.paste top_left 0 0).paste top_right half_width 0).paste
      bottom_left 0 half_height).paste bottom_right half_width half_height)

/-- A single-channel mask image (PIL mode 'L'). -/
structure Mask where
  width : Nat
  height : Nat
  pix : Nat → Nat → Nat

/-- Model of `Image.new('L', size, 0)`: an all-zero mask. -/
def Mask.new (size : Nat × Nat) : Mask :=
  { width := size.1, height := size.2, pix := fun _ _ => 0 }

/-- Model of `ImageDraw.Draw(mask).rectangle((x0, y0, x1, y1), fill)`:
fills every coordinate with `x0 ≤ x ≤ x1` and `y0 ≤ y ≤ y1` — PIL's
rectangle includes BOTH corner points.  Bounds are `Int` because the
computed corners may be negative; drawing is clipped to the image, which
on a total pixel function needs no extra handling since only in-bounds
coordinates are ever compared. -/
def Mask.drawRectangle (m : Mask) (x0 y0 x1 y1 : Int) (fill : Nat) : Mask :=
  { m with
    pix := fun x y =>
      if x0 ≤ (x : Int) ∧ (x : Int) ≤ x1 ∧ y0 ≤ (y : Int) ∧ (y : Int) ≤ y1 then
        fill
      else m.pix x y }

/-- `create_center_mask(size, width=64)` from `src/inpainting.py`: black
mask with a horizontal and a vertical band drawn in white (255). -/
def create_center_mask (size : Nat × Nat) (width : Nat) : Mask :=
  let mask := Mask.new size
  let half_width := size.1 / 2
  let half_height := size.2 / 2
  let half_mask_width := width / 2
  let horiz := mask.drawRectangle 0
    ((half_height : Int) - (half_mask_width : Int)) (size.1 : Int)
    ((half_height : Int) + (half_mask_width : Int)) 255
  let vert := horiz.drawRectangle
    ((half_width : Int) - (half_mask_width : Int)) 0
    ((half_width : Int) + (half_mask_width : Int)) (size.2 : Int) 255
  vert

/-- Error kinds of the pipeline (§7 of the spec): `ValueError` on a
non-square input, and the exception raised on a non-200 API response. -/
inductive PipelineError where
  | validationError : PipelineError
  | externalServiceError : PipelineError
deriving DecidableEq, Repr

/-- Decoded response of the external Stability API call: HTTP status code
and the decoded first artifact image. -/
structure ApiResponse where
  status_code : Nat
  body : Img

/-- The external HTTP capability: what `requests.post` plus base64
decoding of the first artifact amounts to, as a function of the request's
image, mask, prompt, api key, and denoising strength. -/
def ApiFun : Type :=
  Img → Mask → String → String → Rat → ApiResponse

/-- `inpaint_with_stability_api(image, mask, prompt, api_key,
denoising_strength)` from `src/inpainting.py`, with the network call
abstracted as `api`: raise (error) if `response.status_code != 200`,
otherwise return the decoded artifact image. -/
def inpaint_with_stability_api (api : ApiFun) (image : Img) (mask : Mask)
    (prompt : String) (api_key : String) (denoising_strength : Rat) :
    Except PipelineError Img :=
  let response := api image mask prompt api_key denoising_strength
  if response.status_code ≠ 200 then
    Except.error PipelineError.externalServiceError
  else
    Except.ok response.body

/-- `make_texture_seamless(input_image_path, output_image_path, prompt,
api_key, denoising_strength)` from `src/inpainting.py`, with file I/O
externalized: the loaded image is the argument `original_image` and the
final image is returned instead of saved. -/
def make_texture_seamless (original_image : Img) (prompt : String)
    (api_key : String) (api : ApiFun) (denoising_strength : Rat) :
    Except PipelineError Img :=
  let width := original_image.width
  let height := original_image.height
  if width ≠ height then
    Except.error PipelineError.validationError
  else
    let quadrants := split_image_into_quadrants original_image
    let swapped_quadrants := swap_quadrants_diagonally quadrants
    let swapped_image := combine_quadrants swapped_quadrants (width, height)
    let mask := create_center_mask (width, height) 64
    match inpaint_with_stability_api api swapped_image mask prompt api_key
        denoising_strength with
    | Except.error e => Except.error e
    | Except.ok inpainted_image =>
      let inpainted_quadrants := split_image_into_quadrants inpainted_image
      let final_quadrants := swap_quadrants_diagonally inpainted_quadrants
      let final_image := combine_quadrants final_quadrants (width, height)
      Except.ok final_image

/-- An external-inpaint stub that succeeds and returns its input image
unchanged (status 200, body = request image). -/
def noOpApi : ApiFun := fun image _ _ _ _ => ⟨200, image⟩

/-- Membership of coordinate `(x, y)` in the cross of HALF-OPEN bands that
the spec's words describe for `buildCrossMask`: rows
`[height/2 - bw/2, height/2 + bw/2)` spanning the full width, and columns
`[width/2 - bw/2, width/2 + bw/2)` spanning the full height.  Written
from the spec, to be compared with `create_center_mask`. -/
def inSpecCrossBands (size : Nat × Nat) (bandWidth : Nat) (x y : Nat) : Prop :=
  ((size.2 / 2 : Int) - (bandWidth / 2 : Nat) ≤ (y : Int) ∧
      (y : Int) < (size.2 / 2 : Nat) + (bandWidth / 2 : Nat)) ∨
    ((size.1 / 2 : Int) - (bandWidth / 2 : Nat) ≤ (x : Int) ∧
      (x : Int) < (size.1 / 2 : Nat) + (bandWidth / 2 : Nat))

instance (size : Nat × Nat) (bw x y : Nat) :
    Decidable (inSpecCrossBands size bw x y) := by
  unfold inSpecCrossBands; infer_instance

/-- The mask that the spec's words for C2 describe: dimensions `size`,
255 exactly on the half-open cross bands, 0 elsewhere.  Written from the
spec, to be compared with `create_center_mask`. -/
def specCrossMask (size : Nat × Nat) (bandWidth : Nat) : Mask :=
  { width := size.1
    height := size.2
    pix := fun x y => if inSpecCrossBands size bandWidth x y then 255 else 0 }

/-- Pixel-identity of two masks on their common (in-bounds) domain. -/
def maskEq (a b : Mask) : Prop :=
  a.width = b.width ∧ a.height = b.height ∧
    ∀ x, x < a.width → ∀ y, y < a.height → a.pix x y = b.pix x y

instance (a b : Mask) : Decidable (maskEq a b) := by
  unfold maskEq; infer_instance

/-- Pixel lookups at equal coordinates are equal (coordinate rewriting
helper for the paste/crop case analyses). -/
theorem pix_congrArg (img : Img) {a b x y : Nat} (ha : a = x) (hb : b = y) :
    img.pix a b = img.pix x y := by
  rw [ha, hb]

/-- Recomposing the four quadrants of `split_image_into_quadrants` at
their original offsets reconstructs any RGB image exactly, for every
width and height (even or odd). -/
theorem combine_split_roundTrip (img : Img) (hm : img.mode = Mode.RGB) :
    imgEq (combine_quadrants (split_image_into_quadrants img)
      (img.width, img.height)) img := by
  refine ⟨rfl, rfl, hm.symm, ?_⟩
  intro x hx y hy
  have hx' : x < img.width := hx
  have hy' : y < img.height := hy
  dsimp only [combine_quadrants, split_image_into_quadrants, Img.paste,
    Img.crop, Img.new]
  split_ifs <;> first
    | rfl
    | omega
    | exact pix_congrArg img (by omega) (by omega)

/-- A concrete 4×4 RGB test image with distinct pixel values. -/
def testImg4 : Img :=
  { width := 4, height := 4, mode := Mode.RGB, pix := fun x y => (x, y, x + y) }

/-- A concrete 255×255 RGB test image with distinct pixel values. -/
def testImg255 : Img :=
  { width := 255, height := 255, mode := Mode.RGB
    pix := fun x y => (x, y, x + y) }

/-- C1: for every even-dimensioned square image, pasting the four
quadrants produced by `split_image_into_quadrants` back at their original
offsets (`combine_quadrants` at output size `image.size`) yields an image
pixel-identical to the input. -/
theorem c1_split_combine_roundTrip (img : Img)
    (hsq : img.width = img.height) (heven : img.width % 2 = 0)
    (hm : img.mode = Mode.RGB) :
    imgEq (combine_quadrants (split_image_into_quadrants img)
      (img.width, img.height)) img :=
  combine_split_roundTrip img hm

/-- C1 witness: the round trip on a concrete even-dimensioned 4×4 square
RGB image. -/
theorem c1_split_combine_roundTrip_witness :
    testImg4.width = testImg4.height ∧ testImg4.width % 2 = 0 ∧
      testImg4.mode = Mode.RGB ∧
      imgEq (combine_quadrants (split_image_into_quadrants testImg4)
        (testImg4.width, testImg4.height)) testImg4 :=
  ⟨rfl, rfl, rfl, c1_split_combine_roundTrip testImg4 rfl rfl rfl⟩

/-- C4: the diagonal swap is an involution: for every 4-tuple of images,
applying `swap_quadrants_diagonally` twice returns the tuple unchanged,
with no size constraint on the quadrants. -/
theorem c4_swap_involution (q : Img × Img × Img × Img) :
    swap_quadrants_diagonally (swap_quadrants_diagonally q) = q := by
  obtain ⟨a, b, c, d⟩ := q
  rfl

/-- C5: `swap_quadrants_diagonally` maps `(tl, tr, bl, br)` to exactly
`(br, bl, tr, tl)`: each position receives the opposite corner's content
and the positional order of the tuple is preserved. -/
theorem c5_swap_permutation (tl tr bl br : Img) :
    swap_quadrants_diagonally (tl, tr, bl, br) = (br, bl, tr, tl) := rfl

/-- C8: on a 255×255 image the two left quadrants are 127 pixels wide and
the two right quadrants 128 pixels wide (floor division gives the later
half the extra pixel), and recombining the quadrants at output size
`(255, 255)` reconstructs the original image pixel-identically. -/
theorem c8_odd_split_widths_roundTrip (img : Img) (hw : img.width = 255)
    (hh : img.height = 255) (hm : img.mode = Mode.RGB) :
    (split_image_into_quadrants img).1.width = 127 ∧
      (split_image_into_quadrants img).2.1.width = 128 ∧
      (split_image_into_quadrants img).2.2.1.width = 127 ∧
      (split_image_into_quadrants img).2.2.2.width = 128 ∧
      imgEq (combine_quadrants (split_image_into_quadrants img) (255, 255))
        img := by
  refine ⟨?_, ?_, ?_, ?_, ?_⟩
  · simp [split_image_into_quadrants, Img.crop, hw]
  · simp [split_image_into_quadrants, Img.crop, hw]
  · simp [split_image_into_quadrants, Img.crop, hw]
  · simp [split_image_into_quadrants, Img.crop, hw]
  · have h := combine_split_roundTrip img hm
    rwa [hw, hh] at h

/-- C8 witness: quadrant widths and the round trip on a concrete 255×255
RGB image. -/
theorem c8_odd_split_widths_roundTrip_witness :
    (split_image_into_quadrants testImg255).1.width = 127 ∧
      (split_image_into_quadrants testImg255).2.1.width = 128 ∧
      (split_image_into_quadrants testImg255).2.2.1.width = 127 ∧
      (split_image_into_quadrants testImg255).2.2.2.width = 128 ∧
      imgEq
        (combine_quadrants (split_image_into_quadrants testImg255) (255, 255))
        testImg255 :=
  c8_odd_split_widths_roundTrip testImg255 rfl rfl rfl

/-- Membership in the INCLUSIVE cross bands that `create_center_mask`
actually draws: PIL's `rectangle` includes both corner rows/columns, so
the horizontal band is rows `[h/2 - bw/2, h/2 + bw/2]` (both ends
included) and the vertical band is columns `[w/2 - bw/2, w/2 + bw/2]`. -/
def inDrawnCrossBands (size : Nat × Nat) (bandWidth : Nat) (x y : Nat) :
    Prop :=
  ((size.2 / 2 : Int) - (bandWidth / 2 : Nat) ≤ (y : Int) ∧
      (y : Int) ≤ (size.2 / 2 : Nat) + (bandWidth / 2 : Nat)) ∨
    ((size.1 / 2 : Int) - (bandWidth / 2 : Nat) ≤ (x : Int) ∧
      (x : Int) ≤ (size.1 / 2 : Nat) + (bandWidth / 2 : Nat))

instance (size : Nat × Nat) (bw x y : Nat) :
    Decidable (inDrawnCrossBands size bw x y) := by
  unfold inDrawnCrossBands; infer_instance

/-- Pointwise characterization of `create_center_mask`: every in-bounds
pixel is 255 exactly on the inclusive cross bands and 0 elsewhere. -/
theorem create_center_mask_pix (size : Nat × Nat) (bw : Nat) (x y : Nat)
    (hx : x < size.1) (hy : y < size.2) :
    (create_center_mask size bw).pix x y =
      if inDrawnCrossBands size bw x y then 255 else 0 := by
  dsimp only [create_center_mask, Mask.drawRectangle, Mask.new,
    inDrawnCrossBands]
  split_ifs <;> omega

/-- C2 counterexample: at the concrete input `size = (4, 4)`,
`bandWidth = 2`, the mask built by `create_center_mask` is NOT the mask
described by the spec's half-open bands.  Concretely, the spec's
horizontal band would be rows `{1, 2}` and its vertical band columns
`{1, 2}`, making pixel `(0, 3)` unmasked, but PIL's inclusive rectangle
also fills row 3, so the code gives pixel `(0, 3)` the value 255. -/
theorem c2_crossMask_halfOpen_counterexample :
    ¬ maskEq (create_center_mask (4, 4) 2) (specCrossMask (4, 4) 2) := by
  decide

/-- C2 (amended): `create_center_mask size bandWidth` has dimensions
`size`, and an in-bounds pixel has maximum intensity 255 exactly when it
lies in the horizontal band of rows
`[size.2/2 - bandWidth/2, size.2/2 + bandWidth/2]` (both endpoint rows
INCLUDED, one row more than the spec's half-open interval) spanning the
full width, or in the vertical band of columns
`[size.1/2 - bandWidth/2, size.1/2 + bandWidth/2]` (endpoints included)
spanning the full height; every in-bounds pixel strictly outside both
inclusive bands is 0. -/
theorem c2_crossMask_inclusiveBands (size : Nat × Nat) (bandWidth : Nat) :
    (create_center_mask size bandWidth).width = size.1 ∧
      (create_center_mask size bandWidth).height = size.2 ∧
      ∀ x, x < size.1 → ∀ y, y < size.2 →
        ((inDrawnCrossBands size bandWidth x y →
            (create_center_mask size bandWidth).pix x y = 255) ∧
          (¬ inDrawnCrossBands size bandWidth x y →
            (create_center_mask size bandWidth).pix x y = 0)) := by
  refine ⟨rfl, rfl, ?_⟩
  intro x hx y hy
  rw [create_center_mask_pix size bandWidth x y hx hy]
  constructor
  · intro h
    rw [if_pos h]
  · intro h
    rw [if_neg h]

/-- C2 witness: the amended statement evaluated at `size = (4, 4)`,
`bandWidth = 2`: the in-band pixel `(0, 3)` is 255, the out-of-band pixel
`(0, 0)` is 0. -/
theorem c2_crossMask_inclusiveBands_witness :
    (create_center_mask (4, 4) 2).pix 0 3 = 255 ∧
      (create_center_mask (4, 4) 2).pix 0 0 = 0 := by
  have h := (c2_crossMask_inclusiveBands (4, 4) 2).2.2
  exact ⟨(h 0 (by decide) 3 (by decide)).1 (by decide),
    (h 0 (by decide) 0 (by decide)).2 (by decide)⟩

/-- C9: for every size and every even `b` with `2 ≤ b < min size`, the
horizontal band drawn by `create_center_mask` covers rows
`size.2/2 - b/2` through `size.2/2 + b/2` INCLUSIVE across the full
width, the vertical band covers columns `size.1/2 - b/2` through
`size.1/2 + b/2` inclusive across the full height — `b + 1` rows and
`b + 1` columns, one more than the band width — and with `bandWidth = 0`
the center row and center column are still fully masked. -/
theorem c9_band_extent_bPlusOne (size : Nat × Nat) (b : Nat) (hb2 : 2 ≤ b)
    (hbe : b % 2 = 0) (hbw : b < size.1) (hbh : b < size.2) :
    (∀ x, x < size.1 → ∀ y, size.2 / 2 - b / 2 ≤ y →
        y ≤ size.2 / 2 + b / 2 →
        (create_center_mask size b).pix x y = 255) ∧
      (∀ y, y < size.2 → ∀ x, size.1 / 2 - b / 2 ≤ x →
        x ≤ size.1 / 2 + b / 2 →
        (create_center_mask size b).pix x y = 255) ∧
      (size.2 / 2 + b / 2) - (size.2 / 2 - b / 2) + 1 = b + 1 ∧
      (size.1 / 2 + b / 2) - (size.1 / 2 - b / 2) + 1 = b + 1 ∧
      (∀ x, x < size.1 →
        (create_center_mask size 0).pix x (size.2 / 2) = 255) ∧
      (∀ y, y < size.2 →
        (create_center_mask size 0).pix (size.1 / 2) y = 255) := by
  refine ⟨?_, ?_, by omega, by omega, ?_, ?_⟩
  · intro x hx y hy1 hy2
    rw [create_center_mask_pix size b x y hx (by omega)]
    rw [if_pos]
    unfold inDrawnCrossBands
    omega
  · intro y hy x hx1 hx2
    rw [create_center_mask_pix size b x y (by omega) hy]
    rw [if_pos]
    unfold inDrawnCrossBands
    omega
  · intro x hx
    rw [create_center_mask_pix size 0 x (size.2 / 2) hx (by omega)]
    rw [if_pos]
    unfold inDrawnCrossBands
    omega
  · intro y hy
    rw [create_center_mask_pix size 0 (size.1 / 2) y (by omega) hy]
    rw [if_pos]
    unfold inDrawnCrossBands
    omega

/-- C9 witness: at `size = (8, 8)`, `b = 2` the inclusive band rows/cols
3..5 are masked — in particular the endpoint pixels `(0, 5)` and
`(5, 0)` — and at `bandWidth = 0` the center row and column pixels
`(0, 4)` and `(4, 0)` are masked. -/
theorem c9_band_extent_bPlusOne_witness :
    (create_center_mask (8, 8) 2).pix 0 5 = 255 ∧
      (create_center_mask (8, 8) 2).pix 5 0 = 255 ∧
      (create_center_mask (8, 8) 0).pix 0 4 = 255 ∧
      (create_center_mask (8, 8) 0).pix 4 0 = 255 := by
  have h := c9_band_extent_bPlusOne (8, 8) 2 (by decide) (by decide)
    (by decide) (by decide)
  exact ⟨h.1 0 (by decide) 5 (by decide) (by decide),
    h.2.1 0 (by decide) 5 (by decide) (by decide),
    h.2.2.2.2.1 0 (by decide),
    h.2.2.2.2.2 4 (by decide)⟩

/-- A concrete non-square 100×50 RGB test image. -/
def testImgNonSquare : Img :=
  { width := 100, height := 50, mode := Mode.RGB, pix := fun _ _ => (0, 0, 0) }

/-- An external-inpaint stub whose response always has a non-success
status code (500). -/
def failApi : ApiFun := fun image _ _ _ _ => ⟨500, image⟩

/-- C6: on an input image whose width differs from its height,
`make_texture_seamless` fails with the validation error before any
transform, and the result does not depend on the external capability at
all (the statement holds for EVERY `api`), so no external inpainting call
is issued. -/
theorem c6_nonSquare_validationError (img : Img)
    (hne : img.width ≠ img.height) (prompt api_key : String) (api : ApiFun)
    (strength : Rat) :
    make_texture_seamless img prompt api_key api strength =
      Except.error PipelineError.validationError := by
  dsimp only [make_texture_seamless]
  rw [if_pos hne]

/-- C6 witness: the validation failure on a concrete 100×50 image with a
concrete stub capability. -/
theorem c6_nonSquare_validationError_witness :
    testImgNonSquare.width ≠ testImgNonSquare.height ∧
      make_texture_seamless testImgNonSquare "p" "k" noOpApi 0 =
        Except.error PipelineError.validationError :=
  ⟨by decide,
    c6_nonSquare_validationError testImgNonSquare (by decide) "p" "k"
      noOpApi 0⟩

/-- C7: on a square input, whenever the external inpainting capability
responds with a non-success status code, `make_texture_seamless` fails
with the external-service error: it never reaches the second
split/swap/combine step, returns no image at all (so no partial output
and no fallback to the un-inpainted swapped image). -/
theorem c7_apiFailure_externalServiceError (img : Img)
    (hsq : img.width = img.height) (prompt api_key : String) (api : ApiFun)
    (strength : Rat)
    (hfail : ∀ i m p k s, (api i m p k s).status_code ≠ 200) :
    make_texture_seamless img prompt api_key api strength =
      Except.error PipelineError.externalServiceError := by
  dsimp only [make_texture_seamless, inpaint_with_stability_api]
  rw [if_neg (fun h => h hsq), if_pos (hfail _ _ _ _ _)]

/-- C7 witness: the external-service failure on a concrete square image
with a stub capability that always answers with status 500. -/
theorem c7_apiFailure_externalServiceError_witness :
    testImg4.width = testImg4.height ∧ (500 : Nat) ≠ 200 ∧
      make_texture_seamless testImg4 "p" "k" failApi 0 =
        Except.error PipelineError.externalServiceError :=
  ⟨rfl, by decide,
    c7_apiFailure_externalServiceError testImg4 rfl "p" "k" failApi 0
      (by intro i m p k s; dsimp only [failApi]; decide)⟩

/-- C10: `combine_quadrants` always returns an image of exactly
`output_size` whose mode is RGB, whatever the four quadrants are; and
whenever `make_texture_seamless` returns an image, that image has the
input's dimensions and mode RGB, regardless of the input image's own
mode (grayscale, RGBA, ...). -/
theorem c10_combine_rgb_dims (q : Img × Img × Img × Img)
    (output_size : Nat × Nat) :
    (combine_quadrants q output_size).width = output_size.1 ∧
      (combine_quadrants q output_size).height = output_size.2 ∧
      (combine_quadrants q output_size).mode = Mode.RGB ∧
      ∀ img prompt api_key api strength out,
        make_texture_seamless img prompt api_key api strength =
          Except.ok out →
        out.width = img.width ∧ out.height = img.height ∧
          out.mode = Mode.RGB := by
  obtain ⟨a, b, c, d⟩ := q
  refine ⟨rfl, rfl, rfl, ?_⟩
  intro img prompt api_key api strength out hok
  dsimp only [make_texture_seamless] at hok
  by_cases hsq : img.width ≠ img.height
  · rw [if_pos hsq] at hok
    exact absurd hok (by simp)
  · rw [if_neg hsq] at hok
    split at hok
    · exact absurd hok (by simp)
    · injection hok with h
      subst h
      exact ⟨rfl, rfl, rfl⟩

/-- A concrete 4×4 grayscale test image (gray values expanded to RGB
triples, as PIL's L→RGB conversion does on paste). -/
def testImgGray4 : Img :=
  { width := 4, height := 4, mode := Mode.L
    pix := fun x y => (x + y, x + y, x + y) }

/-- The image the pipeline produces on `testImgGray4` with the no-op
stub: split/swap/combine applied twice. -/
def c10OutImg : Img :=
  combine_quadrants
    (swap_quadrants_diagonally (split_image_into_quadrants
      (combine_quadrants
        (swap_quadrants_diagonally (split_image_into_quadrants testImgGray4))
        (testImgGray4.width, testImgGray4.height))))
    (testImgGray4.width, testImgGray4.height)

/-- C10 witness: concrete quadrants give a `(3, 5)` RGB combine result,
and a concrete pipeline run on a grayscale input returns an RGB image of
the input's dimensions. -/
theorem c10_combine_rgb_dims_witness :
    (combine_quadrants (split_image_into_quadrants testImgGray4) (3, 5)).width
        = 3 ∧
      (combine_quadrants (split_image_into_quadrants testImgGray4)
        (3, 5)).height = 5 ∧
      (combine_quadrants (split_image_into_quadrants testImgGray4)
        (3, 5)).mode = Mode.RGB ∧
      c10OutImg.width = testImgGray4.width ∧
      c10OutImg.height = testImgGray4.height ∧
      c10OutImg.mode = Mode.RGB := by
  have h := c10_combine_rgb_dims (split_image_into_quadrants testImgGray4)
    (3, 5)
  have h2 := h.2.2.2 testImgGray4 "p" "k" noOpApi 0 c10OutImg rfl
  exact ⟨h.1, h.2.1, h.2.2.1, h2.1, h2.2.1, h2.2.2⟩

/-- Pixel characterization of one swap/recompose round on a 256×256
image: the pixel at `(x, y)` of
`combine_quadrants (swap_quadrants_diagonally (split_image_into_quadrants
img)) (256, 256)` is the input pixel at the diagonally opposite
coordinate (each coordinate shifted by 128 modulo the image size). -/
theorem swapped_combine_pix (img : Img) (hw : img.width = 256)
    (hh : img.height = 256) (x y : Nat) (hx : x < 256) (hy : y < 256) :
    (combine_quadrants (swap_quadrants_diagonally
      (split_image_into_quadrants img)) (256, 256)).pix x y =
      img.pix (if x < 128 then x + 128 else x - 128)
        (if y < 128 then y + 128 else y - 128) := by
  dsimp only [combine_quadrants, swap_quadrants_diagonally,
    split_image_into_quadrants, Img.paste, Img.crop, Img.new]
  rw [hw, hh]
  split_ifs <;> first
    | omega
    | exact pix_congrArg img (by omega) (by omega)

/-- Applying split → diagonal swap → recompose twice on a 256×256 RGB
image gives back the original image pixel for pixel. -/
theorem doubleSwap_identity (img : Img) (hw : img.width = 256)
    (hh : img.height = 256) (hm : img.mode = Mode.RGB) :
    imgEq
      (combine_quadrants (swap_quadrants_diagonally
        (split_image_into_quadrants
          (combine_quadrants (swap_quadrants_diagonally
            (split_image_into_quadrants img)) (256, 256)))) (256, 256))
      img := by
  refine ⟨hw.symm, hh.symm, hm.symm, ?_⟩
  intro x hx y hy
  have hx' : x < 256 := hx
  have hy' : y < 256 := hy
  rw [swapped_combine_pix _ rfl rfl x y hx' hy']
  rw [swapped_combine_pix img hw hh _ _ (by split_ifs <;> omega)
    (by split_ifs <;> omega)]
  exact pix_congrArg img (by split_ifs <;> omega) (by split_ifs <;> omega)

/-- A concrete 256×256 RGB test image, solid gray except for the single
distinguished pixel `(10, 10) = (255, 0, 0)`. -/
def testImg256 : Img :=
  { width := 256, height := 256, mode := Mode.RGB
    pix := fun x y => if x = 10 ∧ y = 10 then (255, 0, 0) else (40, 40, 40) }

/-- C3: for every 256×256 RGB input image, running the full
`make_texture_seamless` pipeline with an external-inpaint stub that
returns its input unchanged succeeds and produces an output
pixel-identical to the input: split → swap → combine followed by
split → swap → combine is the identity on 256×256 images. -/
theorem c3_pipeline_noOp_identity (img : Img) (hw : img.width = 256)
    (hh : img.height = 256) (hm : img.mode = Mode.RGB)
    (prompt api_key : String) (strength : Rat) :
    ∃ out,
      make_texture_seamless img prompt api_key noOpApi strength =
          Except.ok out ∧
        imgEq out img := by
  have hsq : ¬ img.width ≠ img.height := by
    rw [hw, hh]
    exact fun h => h rfl
  dsimp only [make_texture_seamless]
  rw [if_neg hsq]
  refine ⟨_, rfl, ?_⟩
  rw [hw, hh]
  exact doubleSwap_identity img hw hh hm

/-- C3 witness: the pipeline with the no-op stub on the concrete 256×256
image whose only distinguished pixel is `(10, 10) = (255, 0, 0)` returns
the input pixel-identically. -/
theorem c3_pipeline_noOp_identity_witness :
    ∃ out,
      make_texture_seamless testImg256 "seamless texture" "key" noOpApi 0 =
          Except.ok out ∧
        imgEq out testImg256 :=
  c3_pipeline_noOp_identity testImg256 rfl rfl rfl "seamless texture" "key" 0
